import Mathlib

/-!
Verification development for the `opsreview` incident-report utility
(`pull_alerts.py`).  The Python source is shallowly embedded below:
pure computations become Lean functions, the printed report becomes an
explicit list of report items, the warning log becomes an explicit list
of messages, and Python attributes that may be absent on an object
(optional raw fields, the possibly-never-assigned `description`
attribute) become `Option` values, where `none` means the attribute was
never set and any later attribute access raises `AttributeError`.
Machine integers do not appear: Python integers are unbounded, so `Nat`
and `Int` model them directly.
-/

/-! ## Time model

A timezone-aware Python `datetime`, restricted to the fields the program
touches.  `day` is the proleptic Gregorian ordinal (as in Python
`date.toordinal`: day 1 is 0001-01-01, a Monday); the time of day is kept
in separate fields exactly as `datetime.replace` manipulates them.
The timezone is the fixed local zone `LOCAL_TZ` throughout the program,
so it is not carried in the structure. -/
structure LocalDateTime where
  day : Int
  hour : Nat
  minute : Nat
  second : Nat
  microsecond : Nat
deriving DecidableEq, Repr

/-- Python `datetime.weekday()`: Monday = 0 … Sunday = 6.  Ordinal 1 is a
Monday, so the weekday of ordinal `d` is `(d - 1) mod 7`. -/
def weekday (d : Int) : Int := (d - 1) % 7

/-- The effect of `dateutil` `relativedelta(weekday=WE(-1))` on the date
part: move back to the closest Wednesday on or before `d` (no change when
`d` is itself a Wednesday). -/
def lastWednesdayOnOrBefore (d : Int) : Int := d - (weekday d - 2) % 7

/-- Shallow embedding of `get_oncall_start` (`pull_alerts.py` lines
55-65).  `today` is the current local time with the time of day replaced
by 12:00:00.000; if `today` is a Wednesday the code first steps one day
back (`days=-1`) and then applies `WE(-1)`, otherwise it applies `WE(-1)`
directly. -/
def get_oncall_start (now : LocalDateTime) : LocalDateTime :=
  let today : LocalDateTime :=
    { now with hour := 12, minute := 0, second := 0, microsecond := 0 }
  if weekday today.day = 2 then
    { today with day := lastWednesdayOnOrBefore (today.day - 1) }
  else
    { today with day := lastWednesdayOnOrBefore today.day }

/-- Python `timedelta(days=n)` added to a `datetime`. -/
def addDays (t : LocalDateTime) (n : Int) : LocalDateTime :=
  { t with day := t.day + n }

/-- Leap years of the proleptic Gregorian calendar. -/
def isLeapYear (y : Nat) : Bool :=
  (y % 4 == 0 && y % 100 != 0) || y % 400 == 0

/-- Days from the start of year `y` up to the start of month `m`. -/
def daysBeforeMonth (y m : Nat) : Nat :=
  let base := [0, 31, 59, 90, 120, 151, 181, 212, 243, 273, 304, 334].getD (m - 1) 0
  if 2 < m && isLeapYear y then base + 1 else base

/-- Proleptic Gregorian ordinal of the calendar date `y-m-d`, as computed
by Python `date(y, m, d).toordinal()`. -/
def toOrdinal (y m d : Nat) : Int :=
  (365 * (y - 1) + (y - 1) / 4 - (y - 1) / 100 + (y - 1) / 400
    + daysBeforeMonth y m + d : Int)

/-- The half-open query window of `recent_incidents_for_services`
(`pull_alerts.py` lines 43-52): `since = get_oncall_start()` and
`until = since + timedelta(days=8)`. -/
def recent_incidents_window (now : LocalDateTime) : LocalDateTime × LocalDateTime :=
  let on_call_start := get_oncall_start now
  (on_call_start, addDays on_call_start 8)

/-! ## Incident data model -/

/-- A note as returned by the collaborator: author summary and content
(`note.user.summary`, `note.content`). -/
structure RawNote where
  userSummary : String
  content : String
deriving DecidableEq, Repr

/-- A raw incident as returned by the collaborator API.  `title`,
`summary` and `id` are the optionally-present attributes probed with
`hasattr`; `none` means the attribute is absent.  `createdAtLocal` stands
for the already-parsed, already-converted value
`dateutil.parser.parse(incident.created_at).astimezone(LOCAL_TZ)` (the
parser and zone conversion are external collaborators).  `notes` is the
eagerly fetched `incident.notes.list()` in collaborator order. -/
structure RawIncident where
  serviceSummary : String
  htmlUrl : String
  urgency : String
  title : Option String
  summary : Option String
  id : Option String
  createdAtLocal : LocalDateTime
  notes : List RawNote
deriving DecidableEq, Repr

/-- The normalized incident built by `get_formatted_incidents`
(`pull_alerts.py` lines 115-140).  `description` is an `Option` because
the Python code assigns the attribute only when one of `title`,
`summary`, `id` is present: `none` records that the attribute was never
set, so a later `incident.description` access raises `AttributeError`. -/
structure FormattedIncident where
  service : String
  url : String
  urgency : String
  description : Option String
  createdOn : LocalDateTime
  notes : List String
  lastNote : String
deriving DecidableEq, Repr

/-- Python substring containment (`needle in hay`) on lists of
characters. -/
def listInfixOf (needle hay : List Char) : Bool :=
  match hay with
  | [] => needle.isEmpty
  | _ :: rest => needle.isPrefixOf hay || listInfixOf needle rest

/-- Python substring containment on strings: `needle in hay`. -/
def containsSubstr (needle hay : String) : Bool :=
  listInfixOf needle.data hay.data

/-- Shallow embedding of the property `FormattedIncident.is_high_urgency`
(`pull_alerts.py` lines 34-36):
`not (self.urgency == 'low' or '-low-' in self.service)`. -/
def FormattedIncident.is_high_urgency (i : FormattedIncident) : Bool :=
  !(i.urgency == "low" || containsSubstr "-low-" i.service)

/-- Description resolution of `get_formatted_incidents` (lines 122-129):
probe `title`, then `summary`, then `id`; `none` when all three are
absent (the Python code then only logs a warning and assigns nothing). -/
def get_description (incident : RawIncident) : Option String :=
  match incident.title with
  | some t => some t
  | none =>
    match incident.summary with
    | some s => some s
    | none => incident.id

/-- Note formatting of `get_formatted_incidents` (line 135):
`u'{}: {}'.format(note.user.summary, note.content)`. -/
def formatNote (note : RawNote) : String :=
  note.userSummary ++ ": " ++ note.content

/-- The body of the `get_formatted_incidents` loop (lines 117-138) for a
single raw incident. -/
def normalizeIncident (incident : RawIncident) : FormattedIncident :=
  let formatted_notes := incident.notes.map formatNote
  { service := incident.serviceSummary
    url := incident.htmlUrl
    urgency := incident.urgency
    description := get_description incident
    createdOn := incident.createdAtLocal
    notes := formatted_notes
    lastNote := (formatted_notes.getLast?).getD "NO NOTE" }

/-- The warning line the loop logs when no description attribute is
found (line 129), without the incident interpolation. -/
def missingDescriptionWarning : String :=
  "action=get_description status=not_found"

/-- Shallow embedding of `get_formatted_incidents` (lines 115-140): the
returned list of normalized incidents together with the warning log
emitted while processing (one entry per incident whose `title`,
`summary` and `id` are all absent). -/
def get_formatted_incidents (recent_incidents : List RawIncident) :
    List FormattedIncident × List String :=
  (recent_incidents.map normalizeIncident,
   (recent_incidents.filter (fun i => (get_description i).isNone)).map
     (fun _ => missingDescriptionWarning))

/-! ## Classifier / aggregator -/

/-- Shallow embedding of `is_actionable` (lines 181-182):
`any('#a' in note for note in incident.notes)`. -/
def is_actionable (incident : FormattedIncident) : Bool :=
  incident.notes.any (fun note => containsSubstr "#a" note)

/-- Shallow embedding of `is_non_actionable` (lines 185-186):
`any('#na' in note for note in incident.notes)`. -/
def is_non_actionable (incident : FormattedIncident) : Bool :=
  incident.notes.any (fun note => containsSubstr "#na" note)

/-- Shallow embedding of `is_transient` (lines 189-190):
`any('#t' in note for note in incident.notes)`. -/
def is_transient (incident : FormattedIncident) : Bool :=
  incident.notes.any (fun note => containsSubstr "#t" note)

/-- The four counters accumulated by `get_breakdown`, as a record (the
Python function returns them as a 4-tuple in this order). -/
structure Breakdown where
  actionable : Nat
  non_actionable : Nat
  transient : Nat
  not_tagged : Nat
deriving DecidableEq, Repr

/-- Shallow embedding of `get_breakdown` (lines 164-178): one pass over
the incidents, sorting each into the first matching bucket of the
`if / elif / elif / else` chain. -/
def get_breakdown : List FormattedIncident → Breakdown
  | [] => ⟨0, 0, 0, 0⟩
  | i :: rest =>
    let b := get_breakdown rest
    if is_actionable i then { b with actionable := b.actionable + 1 }
    else if is_non_actionable i then { b with non_actionable := b.non_actionable + 1 }
    else if is_transient i then { b with transient := b.transient + 1 }
    else { b with not_tagged := b.not_tagged + 1 }

/-! ## Report renderer -/

/-- One printed unit of the report, in print order.  `statsTable` carries
the two window timestamps that head the table (the code formats them with
`strftime` but their day, hour and minute fields determine the printed
text) and all ten printed counts. -/
inductive ReportItem where
  | sectionHeader (title : String)
  | groupHeader (description : String) (count : Nat)
  | bulletNoNote (url : String)
  | bulletWithNote (url : String) (note : String)
  | statsTable (windowStart windowEnd : LocalDateTime)
      (high low : Breakdown) (highTotal lowTotal : Nat)
  | totalPages (count : Nat)
deriving DecidableEq, Repr

/-- One step of the `defaultdict(list)` grouping loop: append `i` to the
list stored under `key`, creating the entry at the end when the key is
new (CPython dicts preserve insertion order). -/
def insertGrouped (groups : List (String × List FormattedIncident))
    (key : String) (i : FormattedIncident) :
    List (String × List FormattedIncident) :=
  match groups with
  | [] => [(key, [i])]
  | (k, l) :: rest =>
    if k = key then (k, l ++ [i]) :: rest
    else (k, l) :: insertGrouped rest key i

/-- The grouping key read by the loop: the incident's `description`
attribute (all incidents reaching the loop of a non-raising run have it
assigned; `getD` supplies an arbitrary value never used in that case). -/
def descKey (i : FormattedIncident) : String := i.description.getD ""

/-- The `desc_to_incident_list` mapping built by
`print_pages_by_description` (lines 102-104), keyed by the (assigned)
description of each incident. -/
def groupByDescription (incidents : List FormattedIncident) :
    List (String × List FormattedIncident) :=
  incidents.foldl (fun m i => insertGrouped m (descKey i) i) []

/-- The bullet printed for one incident (lines 108-112): the no-note
form exactly when `last_note == 'NO NOTE'`. -/
def renderBullet (i : FormattedIncident) : ReportItem :=
  if i.lastNote == "NO NOTE" then ReportItem.bulletNoNote i.url
  else ReportItem.bulletWithNote i.url i.lastNote

/-- The lines printed for one description group (lines 106-112): a header
with the occurrence count, then one bullet per incident. -/
def renderGroup (g : String × List FormattedIncident) : List ReportItem :=
  ReportItem.groupHeader g.1 g.2.length :: g.2.map renderBullet

/-- The `AttributeError` raised when `incident.description` is accessed
on an incident whose description attribute was never assigned. -/
def attributeErrorDescription : String :=
  "AttributeError: FormattedIncident object has no attribute description"

/-- Shallow embedding of `print_pages_by_description` (lines 101-112):
the grouping loop reads `incident.description` for every incident before
anything is printed, so when any incident lacks the attribute the
function raises and prints nothing; otherwise it prints every group. -/
def print_pages_by_description (incidents : List FormattedIncident) :
    List ReportItem × Option String :=
  if incidents.all (fun i => i.description.isSome) then
    (((groupByDescription incidents).map renderGroup).flatten, none)
  else
    ([], some attributeErrorDescription)

/-- Shallow embedding of `print_stats` (lines 143-161): the statistics
table, headed by `get_oncall_start()` and `get_oncall_start() +
timedelta(days=7)`, with the two breakdowns and the two partition
totals. -/
def print_stats (now : LocalDateTime)
    (high_urg_incidents low_urg_incidents : List FormattedIncident) :
    ReportItem :=
  let oncall_start := get_oncall_start now
  let oncall_end := addDays oncall_start 7
  ReportItem.statsTable oncall_start oncall_end
    (get_breakdown high_urg_incidents) (get_breakdown low_urg_incidents)
    high_urg_incidents.length low_urg_incidents.length

/-- Default of the `--include-low` CLI flag (`action="store_true",
default=False`). -/
def include_low_default : Bool := false

/-- Shallow embedding of `print_all_incidents` (lines 68-87) from the
point where the raw incidents have been fetched: normalize, partition by
urgency, print the high-urgency section, conditionally the low-urgency
section, then the statistics table and the grand total.  The second
component is the uncaught exception, `none` on a clean run; the items
printed before a raise are kept, exactly as on a real run (each section
header is printed before the grouping loop that may raise). -/
def print_all_incidents (include_low : Bool) (now : LocalDateTime)
    (recent_incidents : List RawIncident) :
    List ReportItem × Option String :=
  let all_incidents := (get_formatted_incidents recent_incidents).1
  let high_urg_incidents := all_incidents.filter (fun i => i.is_high_urgency)
  let low_urg_incidents := all_incidents.filter (fun i => !i.is_high_urgency)
  match print_pages_by_description high_urg_incidents with
  | (highItems, some e) =>
    (ReportItem.sectionHeader "High Urgency Pages" :: highItems, some e)
  | (highItems, none) =>
    if include_low then
      match print_pages_by_description low_urg_incidents with
      | (lowItems, some e) =>
        (ReportItem.sectionHeader "High Urgency Pages" :: highItems
          ++ ReportItem.sectionHeader "Low Urgency Pages" :: lowItems, some e)
      | (lowItems, none) =>
        (ReportItem.sectionHeader "High Urgency Pages" :: highItems
          ++ ReportItem.sectionHeader "Low Urgency Pages" :: lowItems
          ++ [print_stats now high_urg_incidents low_urg_incidents,
              ReportItem.totalPages all_incidents.length], none)
    else
      (ReportItem.sectionHeader "High Urgency Pages" :: highItems
        ++ [print_stats now high_urg_incidents low_urg_incidents,
            ReportItem.totalPages all_incidents.length], none)

/-! ## Auxiliary definitions for the verification

`lookupGroup` is a specification-side view of the association list the
grouping loop builds; `mkIncident` and `noDescriptionRaw` build the
concrete inputs used by the example conjuncts of the theorems below. -/

/-- The list stored under key `k` in the grouping association list
(`[]` when the key is absent, as for `defaultdict(list)`). -/
def lookupGroup : List (String × List FormattedIncident) → String → List FormattedIncident
  | [], _ => []
  | (k0, l) :: rest, k => if k0 = k then l else lookupGroup rest k

/-- A concrete normalized incident with the given service, urgency,
description and formatted notes, `lastNote` derived as the normalizer
does. -/
def mkIncident (service urgency description : String) (notes : List String) :
    FormattedIncident :=
  { service := service
    url := "https://pd.example/incident"
    urgency := urgency
    description := some description
    createdOn := ⟨738895, 0, 0, 0, 0⟩
    notes := notes
    lastNote := (notes.getLast?).getD "NO NOTE" }

/-- A raw incident whose `title`, `summary` and `id` attributes are all
absent: the input on which the description warning fires. -/
def noDescriptionRaw : RawIncident :=
  { serviceSummary := "svc"
    htmlUrl := "https://pd.example/incident/1"
    urgency := "high"
    title := none
    summary := none
    id := none
    createdAtLocal := ⟨738895, 9, 0, 0, 0⟩
    notes := [] }

/-! ## Helper lemmas -/

/-- Executable substring containment agrees with `List.IsInfix`. -/
theorem listInfixOf_iff (needle hay : List Char) :
    listInfixOf needle hay = true ↔ needle <:+: hay := by
  induction hay with
  | nil => simp [listInfixOf]
  | cons a rest ih =>
    simp [listInfixOf, List.isPrefixOf_iff_prefix, ih, List.infix_cons_iff]

/-- String-level substring containment agrees with `List.IsInfix` on the
underlying character lists. -/
theorem containsSubstr_iff (needle hay : String) :
    containsSubstr needle hay = true ↔ needle.data <:+: hay.data :=
  listInfixOf_iff needle.data hay.data

/-- Closed form of `get_oncall_start`: the day moves to a Wednesday and
the time of day becomes noon. -/
theorem get_oncall_start_eq (now : LocalDateTime) :
    get_oncall_start now =
      ⟨if weekday now.day = 2 then lastWednesdayOnOrBefore (now.day - 1)
        else lastWednesdayOnOrBefore now.day, 12, 0, 0, 0⟩ := by
  simp only [get_oncall_start]
  split <;> rfl

/-- Inserting into the grouping map updates exactly the entry of the
inserted key. -/
theorem lookupGroup_insertGrouped (m : List (String × List FormattedIncident))
    (key : String) (i : FormattedIncident) (k : String) :
    lookupGroup (insertGrouped m key i) k =
      if k = key then lookupGroup m key ++ [i] else lookupGroup m k := by
  induction m with
  | nil =>
    by_cases hk : k = key
    · rw [if_pos hk]
      simp [insertGrouped, lookupGroup, hk]
    · rw [if_neg hk]
      simp [insertGrouped, lookupGroup, Ne.symm hk]
  | cons p rest ih =>
    obtain ⟨k0, l0⟩ := p
    simp only [insertGrouped]
    by_cases h0 : k0 = key
    · rw [if_pos h0]
      by_cases hk : k = key
      · have hk0 : k0 = k := h0.trans hk.symm
        rw [if_pos hk]
        simp only [lookupGroup, if_pos hk0, if_pos h0]
      · have hk0 : ¬k0 = k := fun h => hk (h.symm.trans h0)
        rw [if_neg hk]
        simp only [lookupGroup, if_neg hk0]
    · rw [if_neg h0]
      by_cases hk0 : k0 = k
      · have hk : ¬k = key := fun h => h0 (hk0.trans h)
        rw [if_neg hk]
        simp only [lookupGroup, if_pos hk0]
      · simp only [lookupGroup, if_neg hk0, if_neg h0, ih]

/-- Inserting into the grouping map keeps the key list, appending the key
at the end only when it is new. -/
theorem map_fst_insertGrouped (m : List (String × List FormattedIncident))
    (key : String) (i : FormattedIncident) :
    (insertGrouped m key i).map Prod.fst =
      if key ∈ m.map Prod.fst then m.map Prod.fst
      else m.map Prod.fst ++ [key] := by
  induction m with
  | nil => simp [insertGrouped]
  | cons p rest ih =>
    obtain ⟨k0, l0⟩ := p
    simp only [insertGrouped]
    by_cases h0 : k0 = key
    · rw [if_pos h0, if_pos (by simp [h0])]
      simp
    · rw [if_neg h0]
      by_cases hmem : key ∈ rest.map Prod.fst
      · rw [if_pos (by simp [hmem])]
        simp only [List.map_cons, ih, if_pos hmem]
      · rw [if_neg (by
          simp only [List.map_cons, List.mem_cons]
          push_neg
          exact ⟨Ne.symm h0, hmem⟩)]
        simp only [List.map_cons, ih, if_neg hmem, List.cons_append]

/-- Keys absent from the grouping map hold the empty list. -/
theorem lookupGroup_eq_nil_of_not_mem (m : List (String × List FormattedIncident))
    (k : String) (h : k ∉ m.map Prod.fst) : lookupGroup m k = [] := by
  induction m with
  | nil => rfl
  | cons p rest ih =>
    obtain ⟨k0, l0⟩ := p
    simp only [List.map_cons, List.mem_cons] at h
    push_neg at h
    simp only [lookupGroup, if_neg (fun hh : k0 = k => h.1 hh.symm)]
    exact ih h.2

/-- With no duplicate keys, membership in the grouping map is exactly
lookup. -/
theorem mem_iff_lookupGroup (m : List (String × List FormattedIncident))
    (hnd : (m.map Prod.fst).Nodup) (k : String) (g : List FormattedIncident) :
    (k, g) ∈ m ↔ k ∈ m.map Prod.fst ∧ g = lookupGroup m k := by
  induction m with
  | nil => simp
  | cons p rest ih =>
    obtain ⟨k0, l0⟩ := p
    simp only [List.map_cons, List.nodup_cons] at hnd
    constructor
    · intro hm
      rcases List.mem_cons.mp hm with heq | hmem
      · have h1 : k = k0 := congrArg Prod.fst heq
        have h2 : g = l0 := congrArg Prod.snd heq
        subst h1
        simp [lookupGroup, h2]
      · have hr := (ih hnd.2).mp hmem
        have hk : ¬k0 = k := fun h => hnd.1 (h ▸ hr.1)
        refine ⟨List.mem_cons.mpr (Or.inr hr.1), ?_⟩
        simp only [lookupGroup, if_neg hk]
        exact hr.2
    · rintro ⟨hmem, rfl⟩
      rcases List.mem_cons.mp hmem with heq | hmem
      · subst heq
        simp only [lookupGroup, if_pos rfl]
        exact List.mem_cons_self _ _
      · have hk : ¬k0 = k := fun h => hnd.1 (h ▸ hmem)
        have hlk : lookupGroup ((k0, l0) :: rest) k = lookupGroup rest k := by
          simp only [lookupGroup, if_neg hk]
        exact List.mem_cons.mpr
          (Or.inr ((ih hnd.2).mpr ⟨hmem, hlk⟩))

/-- Each insertion grows the total stored size by exactly one. -/
theorem sizes_insertGrouped (m : List (String × List FormattedIncident))
    (key : String) (i : FormattedIncident) :
    ((insertGrouped m key i).map (fun p => p.2.length)).sum
      = (m.map (fun p => p.2.length)).sum + 1 := by
  induction m with
  | nil => simp [insertGrouped]
  | cons p rest ih =>
    obtain ⟨k0, l0⟩ := p
    by_cases h0 : k0 = key
    · simp only [insertGrouped, if_pos h0, List.map_cons, List.sum_cons]
      simp
      omega
    · simp only [insertGrouped, if_neg h0, List.map_cons, List.sum_cons, ih]
      omega

/-- Invariant of the grouping loop: starting from a map that groups
`done`, folding the remaining incidents yields a map with distinct keys
that groups `done ++ xs`, of total stored size grown by `xs.length`. -/
theorem groupFold_invariant (xs : List FormattedIncident) :
    ∀ (done : List FormattedIncident) (m : List (String × List FormattedIncident)),
    (m.map Prod.fst).Nodup →
    (∀ k, lookupGroup m k = done.filter (fun j => descKey j == k)) →
    ((xs.foldl (fun acc i => insertGrouped acc (descKey i) i) m).map Prod.fst).Nodup
    ∧ (∀ k, lookupGroup (xs.foldl (fun acc i => insertGrouped acc (descKey i) i) m) k
        = (done ++ xs).filter (fun j => descKey j == k))
    ∧ ((xs.foldl (fun acc i => insertGrouped acc (descKey i) i) m).map
        (fun p => p.2.length)).sum = (m.map (fun p => p.2.length)).sum + xs.length := by
  induction xs with
  | nil =>
    intro done m h1 h2
    simpa using ⟨h1, h2⟩
  | cons i rest ih =>
    intro done m h1 h2
    simp only [List.foldl_cons]
    have h1' : ((insertGrouped m (descKey i) i).map Prod.fst).Nodup := by
      rw [map_fst_insertGrouped]
      split
      · exact h1
      · next hnot =>
          simp only [List.nodup_append, List.nodup_singleton, true_and]
          exact ⟨h1, by simpa using hnot⟩
    have h2' : ∀ k, lookupGroup (insertGrouped m (descKey i) i) k
        = (done ++ [i]).filter (fun j => descKey j == k) := by
      intro k
      rw [lookupGroup_insertGrouped, List.filter_append]
      by_cases hk : k = descKey i
      · subst hk
        rw [if_pos rfl, h2]
        simp
      · rw [if_neg hk, h2]
        have : (descKey i == k) = false := by
          simpa using Ne.symm hk
        simp [List.filter, this]
    obtain ⟨g1, g2, g3⟩ := ih (done ++ [i]) _ h1' h2'
    refine ⟨g1, ?_, ?_⟩
    · intro k
      rw [g2 k]
      simp
    · rw [g3, sizes_insertGrouped]
      simp only [List.length_cons]
      omega

/-- A clean grouping run: when every incident has its description
attribute assigned, `print_pages_by_description` raises nothing and
renders every group. -/
theorem print_pages_by_description_ok (incidents : List FormattedIncident)
    (h : incidents.all (fun i => i.description.isSome) = true) :
    print_pages_by_description incidents
      = (((groupByDescription incidents).map renderGroup).flatten, none) := by
  rw [print_pages_by_description, if_pos h]

/-- The per-group rendering never emits a section header. -/
theorem sectionHeader_not_mem_rendered (t : String)
    (gs : List (String × List FormattedIncident)) :
    ReportItem.sectionHeader t ∉ (gs.map renderGroup).flatten := by
  intro hmem
  rw [List.mem_flatten] at hmem
  obtain ⟨items, hitems, hin⟩ := hmem
  rw [List.mem_map] at hitems
  obtain ⟨g, _, rfl⟩ := hitems
  rcases List.mem_cons.mp hin with h | h
  · cases h
  · obtain ⟨i, _, hi⟩ := List.mem_map.mp h
    unfold renderBullet at hi
    split at hi <;> cases hi

/-- Filtering a list by a predicate and by its negation partitions its
length. -/
theorem filter_partition_length (l : List FormattedIncident)
    (p : FormattedIncident → Bool) :
    (l.filter p).length + (l.filter (fun i => !p i)).length = l.length := by
  induction l with
  | nil => rfl
  | cons a rest ih =>
    by_cases h : p a = true
    · simp [List.filter_cons, h]
      omega
    · simp [List.filter_cons, h, Bool.eq_false_iff.mpr h]
      omega

/-- A property holding on all elements still holds on a filtered
sublist. -/
theorem all_filter_of_all (l : List FormattedIncident)
    (p q : FormattedIncident → Bool) (h : l.all p = true) :
    (l.filter q).all p = true := by
  rw [List.all_eq_true] at h ⊢
  intro i hi
  exact h i (List.mem_filter.mp hi).1

/-! ## Claim theorems -/

/-- C1: for every wall-clock time, `get_oncall_start` returns a Wednesday
at exactly 12:00:00.000 local time; when today is a Wednesday the start
is the previous Wednesday (seven days back, never today), otherwise it is
the most recent Wednesday strictly before today (no later Wednesday lies
between them).  Concretely, for Wednesday 2024-01-10 at any time of day
the start is 2024-01-03 at noon, and for Friday 2024-01-12 it is
2024-01-10 at noon. -/
theorem get_oncall_start_spec :
    (∀ now : LocalDateTime,
      ((get_oncall_start now).hour = 12 ∧ (get_oncall_start now).minute = 0
        ∧ (get_oncall_start now).second = 0
        ∧ (get_oncall_start now).microsecond = 0)
      ∧ weekday (get_oncall_start now).day = 2
      ∧ (weekday now.day = 2 → (get_oncall_start now).day = now.day - 7)
      ∧ (weekday now.day ≠ 2 →
          (get_oncall_start now).day < now.day
          ∧ now.day - 7 < (get_oncall_start now).day
          ∧ ∀ d : Int, (get_oncall_start now).day < d → d < now.day →
              weekday d ≠ 2))
    ∧ (∀ h mi s us : Nat,
        get_oncall_start ⟨toOrdinal 2024 1 10, h, mi, s, us⟩
          = ⟨toOrdinal 2024 1 3, 12, 0, 0, 0⟩)
    ∧ get_oncall_start ⟨toOrdinal 2024 1 12, 15, 30, 0, 0⟩
        = ⟨toOrdinal 2024 1 10, 12, 0, 0, 0⟩ := by
  refine ⟨?_, fun h mi s us => rfl, by decide⟩
  intro now
  refine ⟨?_, ?_⟩
  · rw [get_oncall_start_eq]
    exact ⟨rfl, rfl, rfl, rfl⟩
  · rw [get_oncall_start_eq]
    unfold weekday lastWednesdayOnOrBefore weekday
    dsimp only
    split
    · refine ⟨by omega, by omega, ?_⟩
      intro h
      omega
    · refine ⟨by omega, by omega, ?_⟩
      intro h
      refine ⟨by omega, by omega, ?_⟩
      intro d h1 h2
      omega

/-- C2: `is_high_urgency` is the negation of
(urgency equals low OR the service name contains the marker `-low-`);
an incident with urgency low and service checkout-prod is classified low,
and an incident with urgency high but service checkout-low-priority is
classified low (the marker overrides the urgency field). -/
theorem is_high_urgency_spec :
    (∀ i : FormattedIncident,
      i.is_high_urgency = true
        ↔ ¬(i.urgency = "low" ∨ "-low-".data <:+: i.service.data))
    ∧ (mkIncident "checkout-prod" "low" "d" []).is_high_urgency = false
    ∧ (mkIncident "checkout-low-priority" "high" "d" []).is_high_urgency = false
    ∧ (mkIncident "checkout-prod" "high" "d" []).is_high_urgency = true := by
  refine ⟨?_, by decide, by decide, by decide⟩
  intro i
  simp only [FormattedIncident.is_high_urgency, Bool.not_eq_true',
    Bool.or_eq_false_iff]
  simp only [← Bool.not_eq_true, beq_iff_eq, containsSubstr_iff, not_or]

/-- C3: the disposition of an incident is decided by scanning all its
notes for the literal substrings `#a`, `#na`, `#t` in that priority
order, first match wins, case-sensitive and with no word boundary: an
incident whose notes contain both `#a` and `#na` counts as actionable, a
note containing only `#another` still counts as actionable, an upper-case
`#A` does not match, and an incident with none of the tags counts as not
tagged. -/
theorem disposition_tag_priority_spec :
    (∀ i, is_actionable i = true → get_breakdown [i] = ⟨1, 0, 0, 0⟩)
    ∧ (∀ i, is_actionable i = false → is_non_actionable i = true →
        get_breakdown [i] = ⟨0, 1, 0, 0⟩)
    ∧ (∀ i, is_actionable i = false → is_non_actionable i = false →
        is_transient i = true → get_breakdown [i] = ⟨0, 0, 1, 0⟩)
    ∧ (∀ i, is_actionable i = false → is_non_actionable i = false →
        is_transient i = false → get_breakdown [i] = ⟨0, 0, 0, 1⟩)
    ∧ (∀ i, is_actionable i = true ↔ ∃ note ∈ i.notes, "#a".data <:+: note.data)
    ∧ get_breakdown [mkIncident "s" "high" "d" ["carol: fixed #a", "dave: #na noise"]]
        = ⟨1, 0, 0, 0⟩
    ∧ get_breakdown [mkIncident "s" "high" "d" ["#another"]] = ⟨1, 0, 0, 0⟩
    ∧ get_breakdown [mkIncident "s" "high" "d" ["bob: #A HIGH"]] = ⟨0, 0, 0, 1⟩
    ∧ get_breakdown [mkIncident "s" "high" "d" ["all quiet"]] = ⟨0, 0, 0, 1⟩ := by
  refine ⟨?_, ?_, ?_, ?_, ?_, by decide, by decide, by decide, by decide⟩
  · intro i h; simp [get_breakdown, h]
  · intro i h1 h2; simp [get_breakdown, h1, h2]
  · intro i h1 h2 h3; simp [get_breakdown, h1, h2, h3]
  · intro i h1 h2 h3; simp [get_breakdown, h1, h2, h3]
  · intro i
    simp [is_actionable, List.any_eq_true, containsSubstr_iff]

/-- C4: the four Breakdown counters (all natural numbers, hence
non-negative) sum to the number of incidents classified. -/
theorem breakdown_sum_spec (incidents : List FormattedIncident) :
    (get_breakdown incidents).actionable + (get_breakdown incidents).non_actionable
      + (get_breakdown incidents).transient + (get_breakdown incidents).not_tagged
      = incidents.length := by
  induction incidents with
  | nil => rfl
  | cons i rest ih =>
    simp only [get_breakdown]
    split_ifs <;> simp_all <;> omega

/-- C5: the description resolves in the fixed order title, then summary,
then id, and when all three are absent the loop logs a warning — but the
resulting incident carries no description value at all (not an empty
string), so the later grouping pass raises an `AttributeError` instead of
continuing: on an input with no title, summary or id, the run aborts
before rendering any group. -/
theorem description_resolution_behavior :
    (∀ r : RawIncident, ∀ t, r.title = some t → get_description r = some t)
    ∧ (∀ r : RawIncident, r.title = none → ∀ s, r.summary = some s →
        get_description r = some s)
    ∧ (∀ r : RawIncident, r.title = none → r.summary = none →
        get_description r = r.id)
    ∧ (∀ r : RawIncident, (normalizeIncident r).description = get_description r)
    ∧ get_description noDescriptionRaw = none
    ∧ (get_formatted_incidents [noDescriptionRaw]).2 = [missingDescriptionWarning]
    ∧ print_pages_by_description [normalizeIncident noDescriptionRaw]
        = ([], some attributeErrorDescription)
    ∧ (print_all_incidents false ⟨738895, 10, 0, 0, 0⟩ [noDescriptionRaw]).2
        = some attributeErrorDescription := by
  refine ⟨?_, ?_, ?_, fun r => rfl, rfl, rfl, by decide, by decide⟩
  · intro r t h; simp [get_description, h]
  · intro r h1 s h2; simp [get_description, h1, h2]
  · intro r h1 h2; simp [get_description, h1, h2]

/-- C6: each note is formatted as author, colon, space, content, in
source order, and `lastNote` is the last formatted note, or the sentinel
NO NOTE when the incident has no notes; an incident with notes
`x: hi` and `y: bye` has lastNote `y: bye`. -/
theorem last_note_spec :
    (∀ n : RawNote, formatNote n = n.userSummary ++ ": " ++ n.content)
    ∧ (∀ r : RawIncident, (normalizeIncident r).notes = r.notes.map formatNote)
    ∧ (∀ r : RawIncident, r.notes = [] → (normalizeIncident r).lastNote = "NO NOTE")
    ∧ (∀ r : RawIncident, ∀ s, (r.notes.map formatNote).getLast? = some s →
        (normalizeIncident r).lastNote = s)
    ∧ (normalizeIncident { noDescriptionRaw with
        notes := [⟨"x", "hi"⟩, ⟨"y", "bye"⟩] }).lastNote = "y: bye"
    ∧ (normalizeIncident { noDescriptionRaw with
        notes := [⟨"x", "hi"⟩, ⟨"y", "bye"⟩] }).notes = ["x: hi", "y: bye"]
    ∧ (normalizeIncident noDescriptionRaw).lastNote = "NO NOTE" := by
  refine ⟨fun n => rfl, fun r => rfl, ?_, ?_, by decide, by decide, rfl⟩
  · intro r h; simp [normalizeIncident, h]
  · intro r s h; simp [normalizeIncident, h]

/-- C7 (counterexample): at Friday 2024-01-12 15:30 the statistics table
is not headed by the end of the fetch window — the table shows start + 7
days while the fetch uses start + 8 days. -/
theorem stats_window_end_mismatch :
    print_stats ⟨toOrdinal 2024 1 12, 15, 30, 0, 0⟩ [] []
      ≠ ReportItem.statsTable
          (recent_incidents_window ⟨toOrdinal 2024 1 12, 15, 30, 0, 0⟩).1
          (recent_incidents_window ⟨toOrdinal 2024 1 12, 15, 30, 0, 0⟩).2
          (get_breakdown []) (get_breakdown []) 0 0 := by
  decide

/-- C7 (amended): the fetch window runs from the on-call start to start
plus 8 days, while the statistics table is headed by the on-call start
and start plus 7 days — one day earlier than the fetch end, so the two
end timestamps never agree. -/
theorem stats_window_spec (now : LocalDateTime)
    (hi lo : List FormattedIncident) :
    (recent_incidents_window now).1 = get_oncall_start now
    ∧ (recent_incidents_window now).2 = addDays (get_oncall_start now) 8
    ∧ print_stats now hi lo = ReportItem.statsTable (get_oncall_start now)
        (addDays (get_oncall_start now) 7) (get_breakdown hi) (get_breakdown lo)
        hi.length lo.length
    ∧ (addDays (get_oncall_start now) 7).day + 1
        = (addDays (get_oncall_start now) 8).day
    ∧ addDays (get_oncall_start now) 7 ≠ addDays (get_oncall_start now) 8 := by
  refine ⟨rfl, rfl, rfl, by simp [addDays]; omega, ?_⟩
  intro h
  have hd := congrArg LocalDateTime.day h
  simp [addDays] at hd

/-- C8: the high-urgency section is always rendered; the low-urgency
section is rendered exactly when the include-low flag (default false) is
set; on a clean run the statistics table and the grand total over both
urgency partitions are printed for either flag value, and the two
partitions always sum to the whole incident list. -/
theorem report_sections_spec :
    include_low_default = false
    ∧ (∀ (il : Bool) (now : LocalDateTime) (raws : List RawIncident),
        ReportItem.sectionHeader "High Urgency Pages"
          ∈ (print_all_incidents il now raws).1)
    ∧ (∀ (il : Bool) (now : LocalDateTime) (raws : List RawIncident),
        ((get_formatted_incidents raws).1.filter
            (fun i => i.is_high_urgency)).all (fun i => i.description.isSome)
          = true →
        (ReportItem.sectionHeader "Low Urgency Pages"
            ∈ (print_all_incidents il now raws).1 ↔ il = true))
    ∧ (∀ (il : Bool) (now : LocalDateTime) (raws : List RawIncident),
        (get_formatted_incidents raws).1.all (fun i => i.description.isSome)
          = true →
        (print_all_incidents il now raws).2 = none
        ∧ print_stats now
            ((get_formatted_incidents raws).1.filter (fun i => i.is_high_urgency))
            ((get_formatted_incidents raws).1.filter (fun i => !i.is_high_urgency))
            ∈ (print_all_incidents il now raws).1
        ∧ ReportItem.totalPages (get_formatted_incidents raws).1.length
            ∈ (print_all_incidents il now raws).1)
    ∧ (∀ raws : List RawIncident,
        ((get_formatted_incidents raws).1.filter (fun i => i.is_high_urgency)).length
        + ((get_formatted_incidents raws).1.filter (fun i => !i.is_high_urgency)).length
        = (get_formatted_incidents raws).1.length) := by
  refine ⟨rfl, ?_, ?_, ?_, fun raws => filter_partition_length _ _⟩
  · intro il now raws
    unfold print_all_incidents
    dsimp only
    split
    · exact List.mem_cons_self _ _
    · split
      · split
        · exact List.mem_cons_self _ _
        · exact List.mem_cons_self _ _
      · exact List.mem_cons_self _ _
  · intro il now raws hhigh
    unfold print_all_incidents
    dsimp only
    rw [print_pages_by_description_ok _ hhigh]
    cases il with
    | false =>
      simp only [if_neg (Bool.false_ne_true)]
      constructor
      · intro hmem
        rcases List.mem_cons.mp hmem with h | h
        · injection h with hs
          exact absurd hs (by decide)
        · rcases List.mem_append.mp h with h | h
          · exact absurd h (sectionHeader_not_mem_rendered _ _)
          · rcases List.mem_cons.mp h with h | h
            · cases h
            · rcases List.mem_cons.mp h with h | h
              · cases h
              · exact absurd h (List.not_mem_nil _)
      · intro h; cases h
    | true =>
      simp only [if_pos rfl]
      refine ⟨fun _ => by trivial, fun _ => ?_⟩
      rcases hl : print_pages_by_description
          ((get_formatted_incidents raws).1.filter (fun i => !i.is_high_urgency))
        with ⟨lowItems, e⟩
      cases e <;> simp
  · intro il now raws hall
    have hhigh := all_filter_of_all _ _ (fun i => i.is_high_urgency) hall
    have hlow := all_filter_of_all _ _ (fun i => !i.is_high_urgency) hall
    unfold print_all_incidents
    dsimp only
    rw [print_pages_by_description_ok _ hhigh]
    cases il with
    | false =>
      simp only [if_neg (Bool.false_ne_true)]
      exact ⟨by trivial, by simp, by simp⟩
    | true =>
      simp only [if_pos rfl]
      rw [print_pages_by_description_ok _ hlow]
      exact ⟨by trivial, by simp, by simp⟩

/-- C9: grouping by description places each incident in exactly one group
(the keys are distinct and every incident appears under its own
description key), each group is the in-order sublist of the input with
that description (so bullets keep the input order), the group sizes sum
to the input length, and each rendered group prints a header whose count
equals its number of bullets.  A concrete run groups three incidents with
descriptions A, B, A into two groups of sizes two and one. -/
theorem group_by_description_spec :
    (∀ xs : List FormattedIncident, ((groupByDescription xs).map Prod.fst).Nodup)
    ∧ (∀ xs : List FormattedIncident, ∀ k g, (k, g) ∈ groupByDescription xs →
        g = xs.filter (fun j => descKey j == k))
    ∧ (∀ xs : List FormattedIncident, ∀ i ∈ xs,
        descKey i ∈ (groupByDescription xs).map Prod.fst)
    ∧ (∀ xs : List FormattedIncident,
        ((groupByDescription xs).map (fun p => p.2.length)).sum = xs.length)
    ∧ (∀ xs : List FormattedIncident, ∀ k g, (k, g) ∈ groupByDescription xs →
        g.Sublist xs)
    ∧ (∀ k g, renderGroup (k, g)
          = ReportItem.groupHeader k g.length :: g.map renderBullet
        ∧ (g.map renderBullet).length = g.length)
    ∧ groupByDescription
        [mkIncident "s" "high" "A" ["n: 1"], mkIncident "s" "high" "B" [],
         mkIncident "s" "high" "A" ["n: 3"]]
      = [("A", [mkIncident "s" "high" "A" ["n: 1"],
                mkIncident "s" "high" "A" ["n: 3"]]),
         ("B", [mkIncident "s" "high" "B" []])] := by
  have base : ∀ xs : List FormattedIncident,
      ((groupByDescription xs).map Prod.fst).Nodup
      ∧ (∀ k, lookupGroup (groupByDescription xs) k
          = xs.filter (fun j => descKey j == k))
      ∧ ((groupByDescription xs).map (fun p => p.2.length)).sum = xs.length := by
    intro xs
    have h := groupFold_invariant xs [] [] (by simp) (fun k => rfl)
    simpa [groupByDescription] using h
  have part2 : ∀ xs : List FormattedIncident, ∀ k g, (k, g) ∈ groupByDescription xs →
      g = xs.filter (fun j => descKey j == k) := by
    intro xs k g h
    have hm := (mem_iff_lookupGroup _ (base xs).1 k g).mp h
    rw [hm.2, (base xs).2.1 k]
  refine ⟨fun xs => (base xs).1, part2, ?_, fun xs => (base xs).2.2, ?_, ?_,
    by decide⟩
  · intro xs i hi
    by_contra hnot
    have h0 := lookupGroup_eq_nil_of_not_mem _ _ hnot
    rw [(base xs).2.1] at h0
    have hmem : i ∈ xs.filter (fun j => descKey j == descKey i) :=
      List.mem_filter.mpr ⟨hi, by simp⟩
    rw [h0] at hmem
    exact List.not_mem_nil _ hmem
  · intro xs k g h
    rw [part2 xs k g h]
    exact List.filter_sublist _
  · intro k g
    exact ⟨rfl, by simp⟩

/-- C10: every formatted note contains the colon-space separator, so it
can never equal the sentinel NO NOTE; hence `lastNote` equals the
sentinel exactly when the incident has zero notes, and the rendered
bullet takes the no-note form exactly for incidents with zero notes,
otherwise showing the last note. -/
theorem no_note_sentinel_spec :
    (∀ n : RawNote, ": ".data <:+: (formatNote n).data)
    ∧ (∀ n : RawNote, formatNote n ≠ "NO NOTE")
    ∧ (∀ r : RawIncident, ((normalizeIncident r).lastNote = "NO NOTE" ↔ r.notes = []))
    ∧ (∀ r : RawIncident,
        (renderBullet (normalizeIncident r)
          = ReportItem.bulletNoNote (normalizeIncident r).url ↔ r.notes = []))
    ∧ (∀ r : RawIncident, r.notes ≠ [] →
        renderBullet (normalizeIncident r)
          = ReportItem.bulletWithNote (normalizeIncident r).url
              (normalizeIncident r).lastNote) := by
  have p1 : ∀ n : RawNote, ": ".data <:+: (formatNote n).data := by
    intro n
    refine ⟨n.userSummary.data, n.content.data, ?_⟩
    simp [formatNote]
  have p2 : ∀ n : RawNote, formatNote n ≠ "NO NOTE" := by
    intro n h
    have := p1 n
    rw [h] at this
    exact absurd this (by decide)
  have p3 : ∀ r : RawIncident,
      ((normalizeIncident r).lastNote = "NO NOTE" ↔ r.notes = []) := by
    intro r
    constructor
    · intro h
      by_contra hne
      have hm : r.notes.map formatNote ≠ [] := by
        simpa using hne
      have hlast := List.getLast?_eq_getLast _ hm
      have hmem := List.getLast_mem hm
      obtain ⟨n, _, hn⟩ := List.mem_map.mp hmem
      have : (normalizeIncident r).lastNote = (r.notes.map formatNote).getLast hm := by
        simp [normalizeIncident, hlast]
      rw [h] at this
      exact p2 n (hn.trans this.symm)
    · intro h
      simp [normalizeIncident, h]
  refine ⟨p1, p2, p3, ?_, ?_⟩
  · intro r
    unfold renderBullet
    by_cases h : r.notes = []
    · rw [if_pos (by simp [(p3 r).mpr h])]
      simp [h, (p3 r).mpr h]
    · have hne : ¬(normalizeIncident r).lastNote = "NO NOTE" :=
        fun hh => h ((p3 r).mp hh)
      rw [if_neg (by simpa [beq_iff_eq] using hne)]
      constructor
      · intro hh; cases hh
      · intro hh; exact absurd hh h
  · intro r h
    unfold renderBullet
    have hne : ¬(normalizeIncident r).lastNote = "NO NOTE" :=
      fun hh => h ((p3 r).mp hh)
    rw [if_neg (by simpa [beq_iff_eq] using hne)]
